import Mathlib

/-!
Verification of the local-directory file-persistence layer of `elpuas/llmcms`.

The development shallowly embeds two collaborating modules:

* `src/utils/fileSystemManager.js` — the Directory Session, Permission Gate
  and File Operations (`isFileSystemAccessSupported`,
  `checkDirectoryPermission`, `validateDirectoryHandle`,
  `cleanupRevokedPermissions`, `getContentDirectoryHandle`,
  `ensureMarkdownExtension`, `checkFileExists`, `writeContentFile`,
  `listContentFiles`, `isDirectoryAccessConfigured`, `resetDirectoryAccess`).
* `src/utils/indexedDB.js` — the Handle Store (`storeDirectoryHandle`,
  `getStoredDirectoryHandle`).

Platform behaviour (permission prompts, directory enumeration health, the
interactive picker, the overwrite dialog) is modelled as an oracle
environment `Env`; the mutable module state (the in-memory cached handle,
the IndexedDB record, and the files of the content directory) is threaded
explicitly as `FSState`.  Each acquisition run also produces a trace of
observable actions so that ordering properties (what was consulted before
what) can be stated.
-/

namespace LLMCMS

/-- A File System Access API handle as the code observes it: a display
`name` and a `kind` string (`"directory"` or `"file"`). -/
structure Handle where
  name : String
  kind : String
deriving DecidableEq, Repr

/-- One entry of the content directory: its name, its kind, and (for files)
its current content. -/
structure DirEntry where
  name : String
  kind : String
  content : String
deriving DecidableEq, Repr

/-- Outcome of the `window.showDirectoryPicker()` call on a platform where
it exists: a picked handle; an `AbortError` (the user dismissed the
dialog); or any other thrown error, carried by its message — e.g. the
`SecurityError` thrown when the call does not happen within a user
gesture. -/
inductive PickerOutcome where
  | picked (h : Handle)
  | abort
  | failure (msg : String)
deriving DecidableEq, Repr

/-- Platform oracle for one run: whether the File System Access API exists,
the results of `queryPermission` / `requestPermission` on a handle, whether
`handle.entries().next()` succeeds, what the directory picker call does,
whether persisting the picked handle to the durable store fails, and how
the overwrite-confirmation dialog resolves. -/
structure Env where
  supported : Bool
  queryPermission : Handle → String
  requestPermission : Handle → String
  canEnumerate : Handle → Bool
  picker : PickerOutcome
  storeWriteFails : Bool
  confirmOverwrite : Bool

/-- Mutable state of the module: the module-level `contentDirectoryHandle`
cache, the IndexedDB record stored under the directory-handle key, and the
entries of the content directory on disk. -/
structure FSState where
  cache : Option Handle
  store : Option Handle
  entries : List DirEntry
deriving DecidableEq, Repr

/-- Observable actions of a run, in order. -/
inductive Event where
  | checkPerm (h : Handle)
  | validate (h : Option Handle)
  | readStore (found : Option Handle)
  | clearStore
  | writeStore (h : Handle)
  | showPicker
  | confirm (filename : String)
deriving DecidableEq, Repr

/-- `isFileSystemAccessSupported`: `showDirectoryPicker`/`showOpenFilePicker`
present on `window`. -/
def isFileSystemAccessSupported (env : Env) : Bool :=
  env.supported

/-- `checkDirectoryPermission`: query the current permission; if it is not
already granted, issue an interactive re-request; any failure is caught and
reported as `false`. -/
def checkDirectoryPermission (env : Env) (h : Handle) : Bool :=
  if env.queryPermission h == "granted" then true
  else env.requestPermission h == "granted"

/-- `validateDirectoryHandle`: `true` iff the handle is non-null, of kind
`directory`, and one entry-enumeration step succeeds; every failure is
caught and converted to `false`. -/
def validateDirectoryHandle (env : Env) : Option Handle → Bool
  | none => false
  | some h => h.kind == "directory" && env.canEnumerate h

/-- `cleanupRevokedPermissions`: clear the IndexedDB record (errors are
swallowed). -/
def cleanupRevokedPermissions (s : FSState) : FSState :=
  { s with store := none }

/-- The IndexedDB utility `getStoredDirectoryHandle` as observed by the
Directory Session with a healthy engine: the raw record, filtered to
directory-kind values (any other stored value is reported as `null`). -/
def retrieveStored : Option Handle → Option Handle
  | none => none
  | some h => if h.kind == "directory" then some h else none

/-- Interactive phase of `getContentDirectoryHandle` (the trailing
`try/catch` block): call `window.showDirectoryPicker`, validate the picked
handle, verify permission, persist and cache it.  Only an `AbortError` is
rethrown as the classified cancellation message; every other exception in
this block is wrapped generically as `Failed to access directory: <msg>` —
that covers a picker `SecurityError` (call not within a user gesture), the
`TypeError` thrown when the API is absent, and a failure of the
`storeDirectoryHandle` persistence step (whose own wrapped message is
modelled by one representative string). -/
def pickerPhase (env : Env) (s : FSState) (tr : List Event) :
    Except String Handle × FSState × List Event :=
  if env.supported then
    match env.picker with
    | PickerOutcome.abort =>
        (Except.error "Directory selection cancelled by user", s,
          tr ++ [Event.showPicker])
    | PickerOutcome.failure msg =>
        (Except.error ("Failed to access directory: " ++ msg), s,
          tr ++ [Event.showPicker])
    | PickerOutcome.picked h =>
        if validateDirectoryHandle env (some h) then
          if checkDirectoryPermission env h then
            if env.storeWriteFails then
              (Except.error
                "Failed to access directory: Failed to store directory handle: open failed",
                s, tr ++ [Event.showPicker, Event.validate (some h),
                  Event.checkPerm h])
            else
              (Except.ok h, { s with cache := some h, store := some h },
                tr ++ [Event.showPicker, Event.validate (some h),
                  Event.checkPerm h, Event.writeStore h])
          else
            (Except.error
              "Failed to access directory: Permission denied for directory access",
              s, tr ++ [Event.showPicker, Event.validate (some h),
                Event.checkPerm h])
        else
          (Except.error
            "Failed to access directory: Selected item is not a valid directory",
            s, tr ++ [Event.showPicker, Event.validate (some h)])
  else
    (Except.error
      "Failed to access directory: window.showDirectoryPicker is not a function",
      s, tr)

/-- Durable-store phase of `getContentDirectoryHandle`: read the stored
handle; if present, check permission then validate; on success cache and
return it; on failure run `cleanupRevokedPermissions` and fall through to
the interactive phase.  The read itself is modelled over a healthy engine:
in the source this phase sits outside the `try/catch`, so a rejected
IndexedDB `get` request (the promise returned from inside the utility's
`try` is never awaited there) would propagate out of
`getContentDirectoryHandle` raw and unclassified — that engine failure
mode is modelled at the Handle Store layer (`getStoredDirectoryHandle`
over `IDBEnv` below), not inside this acquisition run. -/
def storedPhase (env : Env) (s : FSState) (tr : List Event) :
    Except String Handle × FSState × List Event :=
  match retrieveStored s.store with
  | some h =>
      if checkDirectoryPermission env h then
        if validateDirectoryHandle env (some h) then
          (Except.ok h, { s with cache := some h },
            tr ++ [Event.readStore (some h), Event.checkPerm h,
              Event.validate (some h)])
        else
          pickerPhase env (cleanupRevokedPermissions s)
            (tr ++ [Event.readStore (some h), Event.checkPerm h,
              Event.validate (some h), Event.clearStore])
      else
        pickerPhase env (cleanupRevokedPermissions s)
          (tr ++ [Event.readStore (some h), Event.checkPerm h,
            Event.clearStore])
  | none => pickerPhase env s (tr ++ [Event.readStore none])

/-- `getContentDirectoryHandle`: the acquisition entry point.  Cached
handle first (permission check, then validation; on validation failure the
cache is dropped, on permission failure the cache is dropped and
`cleanupRevokedPermissions` clears the store), then the durable store, then
the interactive picker. -/
def getContentDirectoryHandle (env : Env) (s : FSState) :
    Except String Handle × FSState × List Event :=
  match s.cache with
  | some h =>
      if checkDirectoryPermission env h then
        if validateDirectoryHandle env (some h) then
          (Except.ok h, s, [Event.checkPerm h, Event.validate (some h)])
        else
          storedPhase env { s with cache := none }
            [Event.checkPerm h, Event.validate (some h)]
      else
        storedPhase env (cleanupRevokedPermissions { s with cache := none })
          [Event.checkPerm h, Event.clearStore]
  | none => storedPhase env s []

/-- JavaScript `String.prototype.trim`: strip leading and trailing
whitespace (character-list level, so that proofs can compute). -/
def jsTrim (s : String) : String :=
  ⟨((s.toList.dropWhile Char.isWhitespace).reverse.dropWhile
      Char.isWhitespace).reverse⟩

/-- JavaScript `String.prototype.endsWith` (character-list level). -/
def jsEndsWith (s suffix : String) : Bool :=
  suffix.toList.isSuffixOf s.toList

/-- `ensureMarkdownExtension`: reject a missing/empty filename, trim
whitespace, reject a whitespace-only filename, and append `.md` when the
trimmed name does not already end in it. -/
def ensureMarkdownExtension (filename : String) : Except String String :=
  if filename == "" then Except.error "Invalid filename provided"
  else if jsTrim filename == "" then Except.error "Filename cannot be empty"
  else
    Except.ok
      (if jsEndsWith (jsTrim filename) ".md" then jsTrim filename
       else jsTrim filename ++ ".md")

/-- `checkFileExists`: `getFileHandle(filename)` without `create`.  A
missing entry raises `NotFoundError`, reported as `false`; an entry of a
different kind raises a `TypeMismatchError`, which is rethrown. -/
def checkFileExists (entries : List DirEntry) (filename : String) :
    Except String Bool :=
  match entries.find? (fun e => e.name == filename) with
  | some e => if e.kind == "file" then Except.ok true
              else Except.error "TypeMismatchError"
  | none => Except.ok false

/-- Effect on the directory of `getFileHandle(name, { create: true })`
followed by `createWritable` / `write(content)` / `close`: the full new
content replaces the old entry, or a fresh file entry is appended. -/
def writeEntry (entries : List DirEntry) (filename content : String) :
    List DirEntry :=
  if entries.any (fun e => e.name == filename) then
    entries.map (fun e =>
      if e.name == filename then { e with content := content } else e)
  else entries ++ [⟨filename, "file", content⟩]

/-- The `catch` clause of `writeContentFile`: a message containing
`cancelled` is normalised to the write-cancelled message, anything else is
wrapped generically. -/
def wrapWriteError (msg : String) : String :=
  if (msg.splitOn "cancelled").length > 1 then "File write cancelled by user"
  else "Failed to write file: " ++ msg

/-- Result record of a successful `writeContentFile` (the `path` field,
derived from the directory display name, is omitted). -/
structure WriteResult where
  filename : String
  wasOverwritten : Bool
deriving DecidableEq, Repr

/-- `writeContentFile`: validate the content, acquire the directory,
normalise the filename, check existence; for an existing file without
`force` ask the Conflict Resolver once and abort when declined; otherwise
create/truncate and write the full content. -/
def writeContentFile (env : Env) (s : FSState) (filename content : String)
    (force : Bool) : Except String WriteResult × FSState × List Event :=
  if content == "" then
    (Except.error "Failed to write file: Content must be a non-empty string",
      s, [])
  else
    match getContentDirectoryHandle env s with
    | (Except.error e, s1, tr) => (Except.error (wrapWriteError e), s1, tr)
    | (Except.ok _, s1, tr) =>
      match ensureMarkdownExtension filename with
      | Except.error e => (Except.error (wrapWriteError e), s1, tr)
      | Except.ok validFilename =>
        match checkFileExists s1.entries validFilename with
        | Except.error e => (Except.error (wrapWriteError e), s1, tr)
        | Except.ok fileExists =>
          if fileExists && !force then
            if env.confirmOverwrite then
              (Except.ok ⟨validFilename, fileExists⟩,
                { s1 with entries := writeEntry s1.entries validFilename content },
                tr ++ [Event.confirm validFilename])
            else
              (Except.error "File write cancelled by user", s1,
                tr ++ [Event.confirm validFilename])
          else
            (Except.ok ⟨validFilename, fileExists⟩,
              { s1 with entries := writeEntry s1.entries validFilename content },
              tr)

/-- One listed content file: the entry name and the derived slug. -/
structure ContentFile where
  name : String
  slug : String
deriving DecidableEq, Repr

/-- JavaScript `String.prototype.replace` with a string pattern replaces
only the FIRST occurrence of the pattern (character-list version). -/
def listReplaceFirst (pat repl : List Char) : List Char → List Char
  | [] => []
  | c :: cs =>
      if pat.isPrefixOf (c :: cs) then repl ++ (c :: cs).drop pat.length
      else c :: listReplaceFirst pat repl cs

/-- JavaScript `s.replace(pat, repl)` for a non-empty string pattern. -/
def jsReplaceFirst (s pat repl : String) : String :=
  ⟨listReplaceFirst pat.toList repl.toList s.toList⟩

/-- `listContentFiles`: acquire the directory, iterate its entries in
order, keep entries of kind `file` whose name ends in `.md`, and derive
each slug with `name.replace(".md", "")`. -/
def listContentFiles (env : Env) (s : FSState) :
    Except String (List ContentFile) × FSState × List Event :=
  match getContentDirectoryHandle env s with
  | (Except.error e, s1, tr) =>
      (Except.error ("Failed to list files: " ++ e), s1, tr)
  | (Except.ok _, s1, tr) =>
      (Except.ok
        ((s1.entries.filter
            (fun e => e.kind == "file" && jsEndsWith e.name ".md")).map
          (fun e => ⟨e.name, jsReplaceFirst e.name ".md" ""⟩)),
        s1, tr)

/-- `isDirectoryAccessConfigured`: the non-interactive probe.  It checks
`isFileSystemAccessSupported` FIRST and reports unconfigured without
touching any state when the API is absent; otherwise it examines the
cached handle, then the stored handle, never reaching the picker. -/
def isDirectoryAccessConfigured (env : Env) (s : FSState) :
    Bool × FSState × List Event :=
  if env.supported then
    match s.cache with
    | some h =>
        if checkDirectoryPermission env h then
          (validateDirectoryHandle env (some h), s,
            [Event.checkPerm h, Event.validate (some h)])
        else
          (false, cleanupRevokedPermissions { s with cache := none },
            [Event.checkPerm h, Event.clearStore])
    | none =>
        match retrieveStored s.store with
        | none => (false, s, [Event.readStore none])
        | some h =>
            if checkDirectoryPermission env h then
              if validateDirectoryHandle env (some h) then
                (true, { s with cache := some h },
                  [Event.readStore (some h), Event.checkPerm h,
                    Event.validate (some h)])
              else
                (false, cleanupRevokedPermissions s,
                  [Event.readStore (some h), Event.checkPerm h,
                    Event.validate (some h), Event.clearStore])
            else
              (false, cleanupRevokedPermissions s,
                [Event.readStore (some h), Event.checkPerm h,
                  Event.clearStore])
  else (false, s, [])

/-- `resetDirectoryAccess`: sets `contentDirectoryHandle = null`, then
opens `llmcms-storage` and, inside the `onsuccess` callback, evaluates
`store.delete(STORAGE_KEY)`.  The identifier `STORAGE_KEY` is not defined
anywhere in the module (the module imports `clearStoredDirectoryHandle`
but does not call it here, and the IndexedDB utility keeps its key
constant private), so when the `handles` object store exists the callback
throws a `ReferenceError` before the delete request is issued and before
`transaction.oncomplete` is installed: the record is never deleted and the
returned promise never settles.  Modelled: the returned Boolean is whether
the promise ever settles; the durable store is left unchanged; only the
in-memory cache is cleared. -/
def resetDirectoryAccess (openFails hasHandlesStore : Bool) (s : FSState) :
    Bool × FSState :=
  (if openFails then true else if hasHandlesStore then false else true,
    { s with cache := none })

/-- Engine conditions for one call into the IndexedDB utility: whether
`indexedDB.open` fails, whether the `handles` object store exists, whether
the issued get/put request itself fails, and the raw stored record. -/
structure IDBEnv where
  openFails : Bool
  storeExists : Bool
  requestFails : Bool
  stored : Option Handle

/-- The IndexedDB utility `getStoredDirectoryHandle`.  The `try/catch`
around the body catches a failure of `indexedDB.open` (and of the
synchronous setup) and returns `null`; the promise returned from inside
the `try` is not awaited there, so a failure of the `get` request itself
surfaces to the caller as a rejection.  A stored value is resolved only
when its `kind` is `directory`; anything else resolves as `null`. -/
def getStoredDirectoryHandle (idb : IDBEnv) : Except String (Option Handle) :=
  if idb.openFails then Except.ok none
  else if !idb.storeExists then Except.ok none
  else if idb.requestFails then Except.error "IndexedDB request failed"
  else
    Except.ok
      (match idb.stored with
       | some h => if h.kind == "directory" then some h else none
       | none => none)

/-- The IndexedDB utility `storeDirectoryHandle`: a missing handle or one
whose `kind` is not `directory` is rejected up front (wrapped by the
`catch`), as is a failure to open the engine; a failure of the `put`
request surfaces as a rejection; on success the record is replaced.  The
second component is the resulting stored record. -/
def storeDirectoryHandle (idb : IDBEnv) (handle : Option Handle) :
    Except String Unit × Option Handle :=
  match handle with
  | none =>
      (Except.error
        "Failed to store directory handle: Invalid directory handle provided",
        idb.stored)
  | some h =>
      if h.kind == "directory" then
        if idb.openFails then
          (Except.error "Failed to store directory handle: open failed",
            idb.stored)
        else if !idb.storeExists then
          (Except.error "Failed to store directory handle: store missing",
            idb.stored)
        else if idb.requestFails then
          (Except.error "IndexedDB request failed", idb.stored)
        else (Except.ok (), some h)
      else
        (Except.error
          "Failed to store directory handle: Invalid directory handle provided",
          idb.stored)

/-! ### Helper lemmas about the acquisition phases -/

/-- The three classified failure causes of the acquisition state machine:
selection cancelled, invalid directory, permission denied. -/
def classifiedCause (e : String) : Prop :=
  e = "Directory selection cancelled by user" ∨
  e = "Failed to access directory: Selected item is not a valid directory" ∨
  e = "Failed to access directory: Permission denied for directory access"

/-- A generic access-failure wrap, `Failed to access directory: <msg>`:
the indiscriminate `catch` clause applied to anything other than an
`AbortError` (absent-API `TypeError`, non-gesture `SecurityError`,
store-write failure, ...). -/
def genericAccessFailure (e : String) : Prop :=
  ∃ m, e = "Failed to access directory: " ++ m

/-- Is an event a Conflict Resolver invocation? -/
def isConfirmEvent : Event → Bool
  | Event.confirm _ => true
  | _ => false

/-- A concrete directory handle for witness runs. -/
def hContent : Handle := ⟨"content", "directory"⟩

/-- Concrete environment: API present, permission already granted,
directory enumerable, picker would be cancelled, resolver declines. -/
def envGranted : Env :=
  ⟨true, fun _ => "granted", fun _ => "denied", fun _ => true,
    PickerOutcome.abort, false, false⟩

/-- Concrete environment: like `envGranted` but the resolver accepts. -/
def envAccept : Env :=
  ⟨true, fun _ => "granted", fun _ => "denied", fun _ => true,
    PickerOutcome.abort, false, true⟩

/-- Concrete environment: the File System Access API is absent. -/
def envAbsent : Env :=
  ⟨false, fun _ => "denied", fun _ => "denied", fun _ => false,
    PickerOutcome.abort, false, false⟩

/-- Concrete environment: permission granted but entry enumeration fails
(the directory was deleted or moved). -/
def envStale : Env :=
  ⟨true, fun _ => "granted", fun _ => "denied", fun _ => false,
    PickerOutcome.abort, false, false⟩

/-- Concrete environment: API present but the picker call happens outside
a user gesture, so `showDirectoryPicker` throws a `SecurityError`. -/
def envNoGesture : Env :=
  ⟨true, fun _ => "denied", fun _ => "denied", fun _ => false,
    PickerOutcome.failure
      "Failed to execute showDirectoryPicker on Window: Must be handled by a user gesture",
    false, false⟩

theorem pickerPhase_entries (env : Env) (s : FSState) (tr : List Event) :
    ((pickerPhase env s tr).2.1).entries = s.entries := by
  unfold pickerPhase
  split
  · cases env.picker with
    | abort => rfl
    | failure msg => rfl
    | picked x =>
        dsimp only
        split
        · split
          · split <;> rfl
          · rfl
        · rfl
  · rfl

theorem pickerPhase_ok {env : Env} {s : FSState} {tr : List Event}
    {h : Handle} {s' : FSState} {tr' : List Event}
    (hEq : pickerPhase env s tr = (Except.ok h, s', tr')) :
    validateDirectoryHandle env (some h) = true ∧
    checkDirectoryPermission env h = true ∧
    s' = { s with cache := some h, store := some h } := by
  unfold pickerPhase at hEq
  split at hEq
  · split at hEq
    · simp at hEq
    · simp at hEq
    · split at hEq
      · split at hEq
        · split at hEq
          · simp at hEq
          · simp only [Prod.mk.injEq, Except.ok.injEq] at hEq
            obtain ⟨rfl, rfl, -⟩ := hEq
            exact ⟨by assumption, by assumption, rfl⟩
        · simp at hEq
      · simp at hEq
  · simp at hEq

theorem pickerPhase_err {env : Env} {s : FSState} {tr : List Event}
    {e : String} {s' : FSState} {tr' : List Event}
    (hEq : pickerPhase env s tr = (Except.error e, s', tr')) :
    (classifiedCause e ∨ genericAccessFailure e) ∧ s' = s := by
  unfold pickerPhase at hEq
  split at hEq
  · split at hEq
    · simp only [Prod.mk.injEq, Except.error.injEq] at hEq
      obtain ⟨rfl, rfl, -⟩ := hEq
      exact ⟨Or.inl (Or.inl rfl), rfl⟩
    · simp only [Prod.mk.injEq, Except.error.injEq] at hEq
      obtain ⟨rfl, rfl, -⟩ := hEq
      exact ⟨Or.inr ⟨_, rfl⟩, rfl⟩
    · split at hEq
      · split at hEq
        · split at hEq
          · simp only [Prod.mk.injEq, Except.error.injEq] at hEq
            obtain ⟨rfl, rfl, -⟩ := hEq
            exact ⟨Or.inr
              ⟨"Failed to store directory handle: open failed", by decide⟩,
              rfl⟩
          · simp at hEq
        · simp only [Prod.mk.injEq, Except.error.injEq] at hEq
          obtain ⟨rfl, rfl, -⟩ := hEq
          exact ⟨Or.inl (Or.inr (Or.inr rfl)), rfl⟩
      · simp only [Prod.mk.injEq, Except.error.injEq] at hEq
        obtain ⟨rfl, rfl, -⟩ := hEq
        exact ⟨Or.inl (Or.inr (Or.inl rfl)), rfl⟩
  · simp only [Prod.mk.injEq, Except.error.injEq] at hEq
    obtain ⟨rfl, rfl, -⟩ := hEq
    exact ⟨Or.inr
      ⟨"window.showDirectoryPicker is not a function", by decide⟩, rfl⟩

theorem storedPhase_entries (env : Env) (s : FSState) (tr : List Event) :
    ((storedPhase env s tr).2.1).entries = s.entries := by
  unfold storedPhase
  cases retrieveStored s.store with
  | none => exact pickerPhase_entries env s _
  | some h =>
      dsimp only
      split
      · split
        · rfl
        · exact pickerPhase_entries env _ _
      · exact pickerPhase_entries env _ _

theorem storedPhase_ok {env : Env} {s : FSState} {tr : List Event}
    {h : Handle} {s' : FSState} {tr' : List Event}
    (hEq : storedPhase env s tr = (Except.ok h, s', tr')) :
    validateDirectoryHandle env (some h) = true ∧
    checkDirectoryPermission env h = true ∧
    s'.cache = some h ∧
    (s'.store = s.store ∨ s'.store = some h) := by
  unfold storedPhase at hEq
  split at hEq
  · split at hEq
    · split at hEq
      · simp only [Prod.mk.injEq, Except.ok.injEq] at hEq
        obtain ⟨rfl, rfl, -⟩ := hEq
        exact ⟨by assumption, by assumption, rfl, Or.inl rfl⟩
      · obtain ⟨hv, hp, rfl⟩ := pickerPhase_ok hEq
        exact ⟨hv, hp, rfl, Or.inr rfl⟩
    · obtain ⟨hv, hp, rfl⟩ := pickerPhase_ok hEq
      exact ⟨hv, hp, rfl, Or.inr rfl⟩
  · obtain ⟨hv, hp, rfl⟩ := pickerPhase_ok hEq
    exact ⟨hv, hp, rfl, Or.inr rfl⟩

theorem storedPhase_err {env : Env} {s : FSState} {tr : List Event}
    {e : String} {s' : FSState} {tr' : List Event}
    (hEq : storedPhase env s tr = (Except.error e, s', tr')) :
    (classifiedCause e ∨ genericAccessFailure e) ∧ s'.cache = s.cache ∧
    (s'.store = s.store ∨ s'.store = none) := by
  unfold storedPhase at hEq
  split at hEq
  · split at hEq
    · split at hEq
      · simp at hEq
      · obtain ⟨hc, rfl⟩ := pickerPhase_err hEq
        exact ⟨hc, rfl, Or.inr rfl⟩
    · obtain ⟨hc, rfl⟩ := pickerPhase_err hEq
      exact ⟨hc, rfl, Or.inr rfl⟩
  · obtain ⟨hc, rfl⟩ := pickerPhase_err hEq
    exact ⟨hc, rfl, Or.inl rfl⟩

theorem getContentDirectoryHandle_entries (env : Env) (s : FSState) :
    ((getContentDirectoryHandle env s).2.1).entries = s.entries := by
  unfold getContentDirectoryHandle
  cases s.cache with
  | none => exact storedPhase_entries env s []
  | some h =>
      dsimp only
      split
      · split
        · rfl
        · exact storedPhase_entries env _ _
      · exact storedPhase_entries env _ _

theorem getContentDirectoryHandle_ok {env : Env} {s : FSState}
    {h : Handle} {s' : FSState} {tr : List Event}
    (hEq : getContentDirectoryHandle env s = (Except.ok h, s', tr)) :
    validateDirectoryHandle env (some h) = true ∧
    checkDirectoryPermission env h = true := by
  unfold getContentDirectoryHandle at hEq
  split at hEq
  · split at hEq
    · split at hEq
      · simp only [Prod.mk.injEq, Except.ok.injEq] at hEq
        obtain ⟨rfl, -, -⟩ := hEq
        exact ⟨by assumption, by assumption⟩
      · exact ⟨(storedPhase_ok hEq).1, (storedPhase_ok hEq).2.1⟩
    · exact ⟨(storedPhase_ok hEq).1, (storedPhase_ok hEq).2.1⟩
  · exact ⟨(storedPhase_ok hEq).1, (storedPhase_ok hEq).2.1⟩

theorem getContentDirectoryHandle_err {env : Env} {s : FSState}
    {e : String} {s' : FSState} {tr : List Event}
    (hEq : getContentDirectoryHandle env s = (Except.error e, s', tr)) :
    (classifiedCause e ∨ genericAccessFailure e) ∧ s'.cache = none := by
  unfold getContentDirectoryHandle at hEq
  split at hEq
  · split at hEq
    · split at hEq
      · simp at hEq
      · obtain ⟨hc, hcc, -⟩ := storedPhase_err hEq
        exact ⟨hc, hcc⟩
    · obtain ⟨hc, hcc, -⟩ := storedPhase_err hEq
      exact ⟨hc, hcc⟩
  · rename_i heq
    obtain ⟨hc, hcc, -⟩ := storedPhase_err hEq
    exact ⟨hc, hcc.trans heq⟩

theorem pickerPhase_confirmCount (env : Env) (s : FSState) (tr : List Event) :
    ((pickerPhase env s tr).2.2).countP (fun e => isConfirmEvent e) =
      tr.countP (fun e => isConfirmEvent e) := by
  unfold pickerPhase
  split
  · cases env.picker with
    | abort => simp [List.countP_append, isConfirmEvent]
    | failure msg => simp [List.countP_append, isConfirmEvent]
    | picked x =>
        dsimp only
        split
        · split
          · split <;>
              simp [List.countP_append, isConfirmEvent, List.countP_cons]
          · simp [List.countP_append, isConfirmEvent, List.countP_cons]
        · simp [List.countP_append, isConfirmEvent, List.countP_cons]
  · rfl

theorem storedPhase_confirmCount (env : Env) (s : FSState) (tr : List Event) :
    ((storedPhase env s tr).2.2).countP (fun e => isConfirmEvent e) =
      tr.countP (fun e => isConfirmEvent e) := by
  unfold storedPhase
  cases retrieveStored s.store with
  | none =>
      rw [pickerPhase_confirmCount]
      simp [List.countP_append, isConfirmEvent, List.countP_cons]
  | some h =>
      dsimp only
      split
      · split
        · simp [List.countP_append, isConfirmEvent, List.countP_cons]
        · rw [pickerPhase_confirmCount]
          simp [List.countP_append, isConfirmEvent, List.countP_cons]
      · rw [pickerPhase_confirmCount]
        simp [List.countP_append, isConfirmEvent, List.countP_cons]

theorem getContentDirectoryHandle_confirmCount (env : Env) (s : FSState) :
    ((getContentDirectoryHandle env s).2.2).countP
      (fun e => isConfirmEvent e) = 0 := by
  unfold getContentDirectoryHandle
  cases s.cache with
  | none =>
      rw [storedPhase_confirmCount]
      rfl
  | some h =>
      dsimp only
      split
      · split
        · simp [isConfirmEvent, List.countP_cons]
        · rw [storedPhase_confirmCount]
          simp [isConfirmEvent, List.countP_cons]
      · rw [storedPhase_confirmCount]
        simp [isConfirmEvent, List.countP_cons]

/-! ### Claims -/

/-- C1 counterexample: the picker call happens outside a user gesture and
throws a `SecurityError`; `getContentDirectoryHandle` rethrows it under
the indiscriminate generic wrap — a non-success outcome that is NOT one of
the classified causes (cancelled / invalid directory / permission denied),
refuting "every non-success outcome is a thrown classified error". -/
theorem C1_counterexample :
    getContentDirectoryHandle envNoGesture ⟨none, none, []⟩ =
      (Except.error
        "Failed to access directory: Failed to execute showDirectoryPicker on Window: Must be handled by a user gesture",
        ⟨none, none, []⟩,
        [Event.readStore none, Event.showPicker]) ∧
    ¬ classifiedCause
      "Failed to access directory: Failed to execute showDirectoryPicker on Window: Must be handled by a user gesture" := by
  constructor
  · rfl
  · intro hc
    rcases hc with h | h | h <;> exact absurd h (by decide)

/-- C1 (amended): `getContentDirectoryHandle` never returns a capability
for which either check failed — every successful return passed both
`checkDirectoryPermission` and `validateDirectoryHandle` during that same
call.  Non-success outcomes are thrown errors, but not every one is
classified: cancellation, invalid selection and permission denial are
reported with their classified messages on their paths, while other
failures surface unclassified — a non-gesture `SecurityError`, the
absent-API `TypeError` and a store-write failure are wrapped in the
generic access-failure message, and a rejected durable-store read
(awaited outside the `try/catch`) propagates raw. -/
theorem C1_amended (env : Env) (s : FSState) :
    (∀ h s' tr, getContentDirectoryHandle env s = (Except.ok h, s', tr) →
      checkDirectoryPermission env h = true ∧
      validateDirectoryHandle env (some h) = true) ∧
    (env.supported = true → s.cache = none → retrieveStored s.store = none →
      (env.picker = PickerOutcome.abort →
        (getContentDirectoryHandle env s).1 =
          Except.error "Directory selection cancelled by user") ∧
      (∀ h, env.picker = PickerOutcome.picked h →
        validateDirectoryHandle env (some h) = false →
        (getContentDirectoryHandle env s).1 =
          Except.error
            "Failed to access directory: Selected item is not a valid directory") ∧
      (∀ h, env.picker = PickerOutcome.picked h →
        validateDirectoryHandle env (some h) = true →
        checkDirectoryPermission env h = false →
        (getContentDirectoryHandle env s).1 =
          Except.error
            "Failed to access directory: Permission denied for directory access")) := by
  constructor
  · intro h s' tr hEq
    exact ⟨(getContentDirectoryHandle_ok hEq).2,
      (getContentDirectoryHandle_ok hEq).1⟩
  · intro hsup hc hst
    have hred : getContentDirectoryHandle env s =
        pickerPhase env s [Event.readStore none] := by
      unfold getContentDirectoryHandle
      rw [hc]
      dsimp only
      unfold storedPhase
      rw [hst]
      rfl
    refine ⟨?_, ?_, ?_⟩
    · intro hab
      rw [hred]
      unfold pickerPhase
      rw [hsup, hab, if_pos rfl]
    · intro h hpick hv
      rw [hred]
      unfold pickerPhase
      rw [hsup, hpick, if_pos rfl]
      dsimp only
      rw [hv, if_neg (by simp)]
    · intro h hpick hv hp
      rw [hred]
      unfold pickerPhase
      rw [hsup, hpick, if_pos rfl]
      dsimp only
      rw [hv, if_pos rfl, hp, if_neg (by simp)]

/-- Witness for C1 (amended): a concrete successful cached acquisition at
which both checks hold, and a concrete cancelled picker run yielding the
classified cancellation message. -/
theorem C1_amended_witness :
    (checkDirectoryPermission envGranted hContent = true ∧
      validateDirectoryHandle envGranted (some hContent) = true) ∧
    (getContentDirectoryHandle envGranted ⟨none, none, []⟩).1 =
      Except.error "Directory selection cancelled by user" :=
  ⟨(C1_amended envGranted ⟨some hContent, some hContent, []⟩).1 hContent
      ⟨some hContent, some hContent, []⟩
      [Event.checkPerm hContent, Event.validate (some hContent)] (by rfl),
   ((C1_amended envGranted ⟨none, none, []⟩).2 rfl rfl rfl).1 rfl⟩

/-- C2 counterexample: on a platform without the capability API
(`supported = false`), with no cached and no stored capability,
`getContentDirectoryHandle` does NOT fail fast before S0: its trace shows
the durable store being consulted (`readStore`), and the failure it
eventually reports is the generic wrap of the `TypeError` thrown at the
picker — not an environment-unsupported error raised before any state. -/
theorem C2_counterexample :
    getContentDirectoryHandle envAbsent ⟨none, none, []⟩ =
      (Except.error
        "Failed to access directory: window.showDirectoryPicker is not a function",
        ⟨none, none, []⟩, [Event.readStore none]) ∧
    Event.readStore none ∈
      (getContentDirectoryHandle envAbsent ⟨none, none, []⟩).2.2 := by
  exact ⟨rfl, List.Mem.head _⟩

/-- C2 (amended): `getContentDirectoryHandle` performs no
environment-support check.  When the capability API is absent and no
cached or stored capability exists, it still consults the cache and the
durable store and only fails once it reaches the interactive state, with
the generic access-failure wrap of the picker `TypeError`.  The fail-fast
unsupported check is instead performed by the non-interactive probe
`isDirectoryAccessConfigured`, which returns unconfigured immediately,
consulting no state. -/
theorem C2_amended (env : Env) (s : FSState)
    (hsup : env.supported = false) :
    (s.cache = none → retrieveStored s.store = none →
      getContentDirectoryHandle env s =
        (Except.error
          "Failed to access directory: window.showDirectoryPicker is not a function",
          s, [Event.readStore none])) ∧
    isDirectoryAccessConfigured env s = (false, s, []) := by
  constructor
  · intro hc hst
    unfold getContentDirectoryHandle
    rw [hc]
    unfold storedPhase
    rw [hst]
    unfold pickerPhase
    rw [hsup]
    simp
  · unfold isDirectoryAccessConfigured
    rw [hsup]
    simp

/-- Witness for C2 (amended) at the concrete unsupported environment. -/
theorem C2_amended_witness :
    ((⟨none, none, []⟩ : FSState).cache = none →
      retrieveStored (⟨none, none, []⟩ : FSState).store = none →
      getContentDirectoryHandle envAbsent ⟨none, none, []⟩ =
        (Except.error
          "Failed to access directory: window.showDirectoryPicker is not a function",
          ⟨none, none, []⟩, [Event.readStore none])) ∧
    isDirectoryAccessConfigured envAbsent ⟨none, none, []⟩ =
      (false, ⟨none, none, []⟩, []) :=
  C2_amended envAbsent ⟨none, none, []⟩ rfl

theorem pickerPhase_avoids {env : Env} {s : FSState} {tr : List Event}
    {h : Handle}
    (hval : validateDirectoryHandle env (some h) = false)
    (hc : s.cache ≠ some h) (hst : s.store ≠ some h) :
    (pickerPhase env s tr).1 ≠ Except.ok h ∧
    ((pickerPhase env s tr).2.1).cache ≠ some h ∧
    ((pickerPhase env s tr).2.1).store ≠ some h := by
  rcases hr : pickerPhase env s tr with ⟨r, s2, tr2⟩
  cases r with
  | error e =>
      obtain ⟨-, rfl⟩ := pickerPhase_err hr
      exact ⟨by simp, hc, hst⟩
  | ok x =>
      obtain ⟨hv, -, rfl⟩ := pickerPhase_ok hr
      have hxh : x ≠ h := by
        intro he
        subst he
        rw [hv] at hval
        exact Bool.noConfusion hval
      exact ⟨by simp [hxh], by simp [hxh], by simp [hxh]⟩

theorem retrieveStored_eq_some {st : Option Handle} {v : Handle}
    (hf : retrieveStored st = some v) :
    st = some v ∧ v.kind = "directory" := by
  cases st with
  | none => simp [retrieveStored] at hf
  | some w =>
      by_cases hwk : (w.kind == "directory") = true
      · simp only [retrieveStored, hwk, if_true] at hf
        obtain rfl := Option.some_inj.mp hf
        exact ⟨rfl, by simpa using hwk⟩
      · simp [retrieveStored, hwk] at hf

theorem storedPhase_avoids {env : Env} {s : FSState} {tr : List Event}
    {h : Handle}
    (hk : h.kind = "directory")
    (hval : validateDirectoryHandle env (some h) = false)
    (hc : s.cache ≠ some h) :
    (storedPhase env s tr).1 ≠ Except.ok h ∧
    ((storedPhase env s tr).2.1).cache ≠ some h ∧
    ((storedPhase env s tr).2.1).store ≠ some h := by
  unfold storedPhase
  cases hfound : retrieveStored s.store with
  | none =>
      dsimp only
      refine pickerPhase_avoids hval hc ?_
      intro hse
      rw [hse] at hfound
      simp [retrieveStored, hk] at hfound
  | some v =>
      have hsv : s.store = some v := (retrieveStored_eq_some hfound).1
      dsimp only
      split
      · split
        · rename_i hpv hvv
          have hvh : v ≠ h := by
            intro he
            subst he
            rw [hvv] at hval
            exact Bool.noConfusion hval
          refine ⟨by simp [hvh], by simp [hvh], ?_⟩
          rw [hsv]
          simp [hvh]
        · refine pickerPhase_avoids hval ?_ ?_ <;>
            simp [cleanupRevokedPermissions, hc]
      · refine pickerPhase_avoids hval ?_ ?_ <;>
          simp [cleanupRevokedPermissions, hc]

/-- C3 counterexample: the cached capability is permission-granted but
fails validation, and the same capability sits in the durable store.  The
claim requires the store to be cleared before falling through to the next
acquisition state; instead, the durable-store read of the next state still
finds the record (`readStore (some hContent)` in the trace), and the
`clearStore` event only happens afterwards, inside the stored-handle
state. -/
theorem C3_counterexample :
    getContentDirectoryHandle envStale ⟨some hContent, some hContent, []⟩ =
      (Except.error "Directory selection cancelled by user",
        ⟨none, none, []⟩,
        [Event.checkPerm hContent, Event.validate (some hContent),
         Event.readStore (some hContent), Event.checkPerm hContent,
         Event.validate (some hContent), Event.clearStore,
         Event.showPicker]) ∧
    Event.readStore (some hContent) ∈
      (getContentDirectoryHandle envStale
        ⟨some hContent, some hContent, []⟩).2.2 := by
  exact ⟨rfl, by rw [show (getContentDirectoryHandle envStale
    ⟨some hContent, some hContent, []⟩).2.2 =
      [Event.checkPerm hContent, Event.validate (some hContent),
       Event.readStore (some hContent), Event.checkPerm hContent,
       Event.validate (some hContent), Event.clearStore,
       Event.showPicker] from rfl]; simp⟩

/-- C3 (amended): when `validateDirectoryHandle` fails on the cached
capability, the cache is dropped at once, but the durable store is NOT
cleared before falling through — it is cleared only inside the next
acquisition state, when the stored capability itself fails its checks.
Still, by completion of that same `acquire` call the failed capability is
neither returned, nor cached, nor (for a directory-kind capability) left
in the durable store. -/
theorem C3_amended {env : Env} {s : FSState} {h : Handle}
    (hc : s.cache = some h) (hk : h.kind = "directory")
    (hperm : checkDirectoryPermission env h = true)
    (hval : validateDirectoryHandle env (some h) = false) :
    (getContentDirectoryHandle env s).1 ≠ Except.ok h ∧
    ((getContentDirectoryHandle env s).2.1).cache ≠ some h ∧
    ((getContentDirectoryHandle env s).2.1).store ≠ some h := by
  unfold getContentDirectoryHandle
  rw [hc]
  dsimp only
  rw [hperm, hval]
  simp only [if_true, if_false, Bool.false_eq_true]
  exact storedPhase_avoids hk hval (by simp)

/-- Witness for C3 (amended): the concrete stale-directory run. -/
theorem C3_amended_witness :
    (getContentDirectoryHandle envStale
      ⟨some hContent, some hContent, []⟩).1 ≠ Except.ok hContent ∧
    ((getContentDirectoryHandle envStale
      ⟨some hContent, some hContent, []⟩).2.1).cache ≠ some hContent ∧
    ((getContentDirectoryHandle envStale
      ⟨some hContent, some hContent, []⟩).2.1).store ≠ some hContent :=
  C3_amended rfl rfl rfl rfl

/-- C4, code evaluated at the failing input: `resetDirectoryAccess` with a
record in the durable store.  The cache is cleared, but because the
`onsuccess` callback evaluates the undefined identifier `STORAGE_KEY` the
delete request is never issued: the returned promise never settles
(first component `false`) and the durable record survives — so a
subsequent non-interactive probe still reports CONFIGURED, not
unconfigured as the claim requires. -/
theorem C4_reset_leaves_record :
    resetDirectoryAccess false true ⟨some hContent, some hContent, []⟩ =
      (false, ⟨none, some hContent, []⟩) ∧
    (isDirectoryAccessConfigured envGranted ⟨none, some hContent, []⟩).1 =
      true := by
  exact ⟨rfl, rfl⟩

theorem listReplaceFirst_tail :
    ∀ base : List Char,
      (∀ j, j < base.length →
        List.isPrefixOf ['.', 'm', 'd'] ((base ++ ['.', 'm', 'd']).drop j)
          = false) →
      listReplaceFirst ['.', 'm', 'd'] [] (base ++ ['.', 'm', 'd']) = base
  | [], _ => by rfl
  | b :: bs, hnb => by
      have h0 := hnb 0 (Nat.succ_pos _)
      simp only [List.drop_zero] at h0
      rw [List.cons_append] at h0
      rw [List.cons_append, listReplaceFirst, h0]
      simp only [Bool.false_eq_true, if_false, List.cons.injEq, true_and]
      exact listReplaceFirst_tail bs (fun j hj => by
        have := hnb (j + 1) (Nat.succ_lt_succ hj)
        simpa using this)

/-- C5 counterexample: a file named `a.mdx.md` (an interior `.md` before
the trailing extension) is listed, but its slug is computed with
JavaScript `String.replace`, which removes the FIRST occurrence of
`".md"`: the slug is `"ax.md"`, not the name minus its trailing extension
(`"a.mdx"`). -/
theorem C5_counterexample :
    (listContentFiles envGranted ⟨some hContent, some hContent,
        [⟨"a.mdx.md", "file", "x"⟩]⟩).1 =
      Except.ok [⟨"a.mdx.md", "ax.md"⟩] ∧
    ("a.mdx.md" : String).dropRight 3 = "a.mdx" ∧
    ("ax.md" : String) ≠ "a.mdx" := by
  refine ⟨rfl, ?_, by decide⟩
  decide

/-- C5 (amended): a successful `listContentFiles` run returns exactly the
entries of kind `file` whose name ends in `.md`, but each slug is the name
with its FIRST occurrence of `".md"` removed.  This coincides with the
name minus its trailing extension exactly when no earlier occurrence of
`".md"` exists; for names with an interior `.md` the slug differs. -/
theorem C5_amended :
    (∀ env s res s2 tr,
      listContentFiles env s = (Except.ok res, s2, tr) →
      ∀ f : ContentFile, f ∈ res ↔ ∃ e ∈ s.entries,
        e.kind = "file" ∧ jsEndsWith e.name ".md" = true ∧
        f = ⟨e.name, jsReplaceFirst e.name ".md" ""⟩) ∧
    (∀ (name : String) (base : List Char),
      name.toList = base ++ ['.', 'm', 'd'] →
      (∀ j, j < base.length →
        List.isPrefixOf ['.', 'm', 'd'] (name.toList.drop j) = false) →
      jsReplaceFirst name ".md" "" = ⟨base⟩) := by
  constructor
  · intro env s res s2 tr hEq f
    unfold listContentFiles at hEq
    rcases hacq : getContentDirectoryHandle env s with ⟨r, s1, tr1⟩
    rw [hacq] at hEq
    cases r with
    | error e => simp at hEq
    | ok d =>
        simp only [Prod.mk.injEq, Except.ok.injEq] at hEq
        obtain ⟨rfl, rfl, -⟩ := hEq
        have hent : s1.entries = s.entries := by
          have h1 := getContentDirectoryHandle_entries env s
          rw [hacq] at h1
          exact h1
        rw [hent]
        simp only [List.mem_map, List.mem_filter, Bool.and_eq_true,
          beq_iff_eq]
        constructor
        · rintro ⟨e, ⟨he, hk, hmd⟩, rfl⟩
          exact ⟨e, he, hk, hmd, rfl⟩
        · rintro ⟨e, he, hk, hmd, rfl⟩
          exact ⟨e, ⟨he, hk, hmd⟩, rfl⟩
  · intro name base hsplit hnb
    unfold jsReplaceFirst
    rw [show (".md" : String).toList = ['.', 'm', 'd'] from rfl,
      show ("" : String).toList = [] from rfl, hsplit]
    rw [listReplaceFirst_tail base (fun j hj => by
      have := hnb j hj
      rwa [hsplit] at this)]

/-- Witness for C5 (amended) at concrete inputs: a listing containing a
regular entry, and the slug computation on a name whose only `.md` is the
trailing extension. -/
theorem C5_amended_witness :
    ((⟨"note.md", "note"⟩ : ContentFile) ∈
        [(⟨"note.md", "note"⟩ : ContentFile)] ↔
      ∃ e ∈ [(⟨"note.md", "file", "z"⟩ : DirEntry)],
        e.kind = "file" ∧ jsEndsWith e.name ".md" = true ∧
        (⟨"note.md", "note"⟩ : ContentFile) =
          ⟨e.name, jsReplaceFirst e.name ".md" ""⟩) ∧
    jsReplaceFirst "note.md" ".md" "" = ⟨['n', 'o', 't', 'e']⟩ := by
  constructor
  · exact (C5_amended.1 envGranted
      ⟨some hContent, some hContent, [⟨"note.md", "file", "z"⟩]⟩
      [⟨"note.md", "note"⟩]
      ⟨some hContent, some hContent, [⟨"note.md", "file", "z"⟩]⟩
      [Event.checkPerm hContent, Event.validate (some hContent)]
      (by rfl) ⟨"note.md", "note"⟩)
  · exact C5_amended.2 "note.md" ['n', 'o', 't', 'e'] (by rfl)
      (by decide)

/-- C6 counterexample: when the storage engine genuinely fails at database
open (`openFails = true`) — e.g. a corrupted store — `getStoredDirectoryHandle`
does NOT surface an error: the surrounding `catch` converts the failure
into a `null` result, indistinguishable from "not found", even though a
record is actually stored. -/
theorem C6_counterexample :
    getStoredDirectoryHandle ⟨true, true, false, some hContent⟩ =
      Except.ok none := by
  rfl

/-- C6 (amended): `getStoredDirectoryHandle` returns `null` rather than
throwing on absence; a failure of the issued read request does surface as
an error (the returned promise is not awaited inside the `try`, so the
`catch` cannot intercept its rejection); but a failure to open the
database is caught and converted into `null` — engine open failure is
reported as "not found", not as an error. -/
theorem C6_amended (idb : IDBEnv) :
    (idb.stored = none → idb.requestFails = false →
      getStoredDirectoryHandle idb = Except.ok none) ∧
    (idb.openFails = false → idb.storeExists = true →
      idb.requestFails = true →
      getStoredDirectoryHandle idb =
        Except.error "IndexedDB request failed") ∧
    (idb.openFails = true → getStoredDirectoryHandle idb = Except.ok none) := by
  refine ⟨?_, ?_, ?_⟩
  · intro hst hreq
    unfold getStoredDirectoryHandle
    rw [hst, hreq]
    split
    · rfl
    · split
      · rfl
      · simp
  · intro hop hse hreq
    unfold getStoredDirectoryHandle
    rw [hop, hse, hreq]
    rfl
  · intro hop
    unfold getStoredDirectoryHandle
    rw [hop]
    rfl

/-- Witness for C6 (amended): a healthy open with a failing read request
surfaces the engine error. -/
theorem C6_amended_witness :
    getStoredDirectoryHandle ⟨false, true, true, none⟩ =
      Except.error "IndexedDB request failed" :=
  (C6_amended ⟨false, true, true, none⟩).2.1 rfl rfl rfl

/-- C8: `ensureMarkdownExtension` is pure; `"note"`, `"note.md"` and
`" note "` all normalise to `"note.md"` (whitespace trimmed, `.md`
appended when absent and kept when present), and every empty or
whitespace-only input fails with an invalid-name error. -/
theorem C8_ensure_extension :
    ensureMarkdownExtension "note" = Except.ok "note.md" ∧
    ensureMarkdownExtension "note.md" = Except.ok "note.md" ∧
    ensureMarkdownExtension " note " = Except.ok "note.md" ∧
    ensureMarkdownExtension "" = Except.error "Invalid filename provided" ∧
    (∀ name : String, jsTrim name = "" →
      ∃ e, ensureMarkdownExtension name = Except.error e) := by
  refine ⟨rfl, rfl, rfl, rfl, ?_⟩
  intro name ht
  unfold ensureMarkdownExtension
  by_cases h0 : (name == "") = true
  · rw [if_pos h0]
    exact ⟨_, rfl⟩
  · rw [if_neg h0, if_pos (by simp [ht])]
    exact ⟨_, rfl⟩

/-- Witness for C8: the whitespace-only input `"   "` fails. -/
theorem C8_ensure_extension_witness :
    ∃ e, ensureMarkdownExtension "   " = Except.error e :=
  C8_ensure_extension.2.2.2.2 "   " (by rfl)

/-- C9: the Handle Store accepts and yields only directory-kind
capabilities: `storeDirectoryHandle` rejects a null capability and any
capability whose kind is not `directory`, and `getStoredDirectoryHandle`
never resolves with a non-directory value, so every capability obtained
from the store has kind `directory`. -/
theorem C9_store_kind_invariant :
    (∀ idb : IDBEnv, (storeDirectoryHandle idb none).1 =
      Except.error
        "Failed to store directory handle: Invalid directory handle provided") ∧
    (∀ (idb : IDBEnv) (h : Handle), h.kind ≠ "directory" →
      (storeDirectoryHandle idb (some h)).1 =
        Except.error
          "Failed to store directory handle: Invalid directory handle provided") ∧
    (∀ (idb : IDBEnv) (h : Handle),
      getStoredDirectoryHandle idb = Except.ok (some h) →
      h.kind = "directory") := by
  refine ⟨fun idb => rfl, ?_, ?_⟩
  · intro idb h hk
    unfold storeDirectoryHandle
    dsimp only
    rw [if_neg (by simpa using hk)]
  · intro idb h hEq
    unfold getStoredDirectoryHandle at hEq
    split at hEq
    · simp at hEq
    · split at hEq
      · simp at hEq
      · split at hEq
        · simp at hEq
        · cases hst : idb.stored with
          | none => rw [hst] at hEq; simp at hEq
          | some v =>
              rw [hst] at hEq
              by_cases hvk : (v.kind == "directory") = true
              · simp only [hvk, if_true, Except.ok.injEq,
                  Option.some.injEq] at hEq
                obtain rfl := hEq
                exact by simpa using hvk
              · simp [hvk] at hEq

/-- Witness for C9: a file-kind capability is rejected by the store. -/
theorem C9_store_kind_invariant_witness :
    (storeDirectoryHandle ⟨false, true, false, none⟩
        (some ⟨"doc", "file"⟩)).1 =
      Except.error
        "Failed to store directory handle: Invalid directory handle provided" :=
  C9_store_kind_invariant.2.1 ⟨false, true, false, none⟩ ⟨"doc", "file"⟩
    (by decide)

/-- C10: a write whose content is the empty string fails immediately with
the non-empty-content error: the state is untouched and the trace is empty
— the directory is never acquired, the Conflict Resolver is never
invoked, and no file is modified.  (The `typeof content !== 'string'` half
of the source guard is enforced here by typing: `content` is a string.) -/
theorem C10_empty_content_write (env : Env) (s : FSState)
    (filename : String) (force : Bool) :
    writeContentFile env s filename "" force =
      (Except.error "Failed to write file: Content must be a non-empty string",
        s, []) := by
  rfl

theorem find_map_replace {name new : String} :
    ∀ (entries : List DirEntry) (k old : String),
      entries.find? (fun e => e.name == name) = some ⟨name, k, old⟩ →
      (entries.map (fun e =>
          if e.name == name then { e with content := new } else e)).find?
        (fun e => e.name == name) = some ⟨name, k, new⟩
  | [], _, _, h => by simp at h
  | e :: es, k, old, h => by
      by_cases he : (e.name == name) = true
      · simp only [List.find?, he] at h
        obtain rfl : e = ⟨name, k, old⟩ := by injection h
        simp [List.find?, he]
      · rw [Bool.not_eq_true] at he
        simp only [List.find?, he] at h
        have ih := @find_map_replace name new es k old h
        rw [List.map_cons, if_neg (by simp [he])]
        simp only [List.find?, he]
        exact ih

theorem writeEntry_find {entries : List DirEntry} {name k old new : String}
    (h : entries.find? (fun e => e.name == name) = some ⟨name, k, old⟩) :
    (writeEntry entries name new).find? (fun e => e.name == name) =
      some ⟨name, k, new⟩ := by
  unfold writeEntry
  rw [if_pos (List.any_eq_true.mpr
    ⟨_, List.mem_of_find?_eq_some h, List.find?_some h⟩)]
  exact find_map_replace entries k old h

/-- C7: a write to an existing file without `force` invokes the Conflict
Resolver exactly once before any modification; if the resolver declines,
the call fails with the write-cancelled error and the directory entries
are exactly the pre-call ones (no handle created, nothing truncated); if
it accepts, the new content fully replaces the old and the result reports
`wasOverwritten = true`. -/
theorem C7_overwrite_gate {env : Env} {s : FSState}
    {filename content : String} {d : Handle} {s1 : FSState}
    {tr : List Event} {valid old : String}
    (hacq : getContentDirectoryHandle env s = (Except.ok d, s1, tr))
    (hname : ensureMarkdownExtension filename = Except.ok valid)
    (hex : s1.entries.find? (fun e => e.name == valid) =
      some ⟨valid, "file", old⟩)
    (hcontent : content ≠ "") :
    ((writeContentFile env s filename content false).2.2).countP
        (fun e => isConfirmEvent e) = 1 ∧
    (env.confirmOverwrite = false →
      writeContentFile env s filename content false =
        (Except.error "File write cancelled by user", s1,
          tr ++ [Event.confirm valid]) ∧
      s1.entries = s.entries) ∧
    (env.confirmOverwrite = true →
      (writeContentFile env s filename content false).1 =
        Except.ok ⟨valid, true⟩ ∧
      ((writeContentFile env s filename content false).2.1).entries.find?
          (fun e => e.name == valid) = some ⟨valid, "file", content⟩) := by
  have hce : (content == "") = false := beq_eq_false_iff_ne.mpr hcontent
  have htr0 : tr.countP (fun e => isConfirmEvent e) = 0 := by
    have h1 := getContentDirectoryHandle_confirmCount env s
    rw [hacq] at h1
    exact h1
  have hent : s1.entries = s.entries := by
    have h1 := getContentDirectoryHandle_entries env s
    rw [hacq] at h1
    exact h1
  have hfe : checkFileExists s1.entries valid = Except.ok true := by
    unfold checkFileExists
    rw [hex]
    rfl
  have hw : writeContentFile env s filename content false =
      (if env.confirmOverwrite then
        (Except.ok ⟨valid, true⟩,
          { s1 with entries := writeEntry s1.entries valid content },
          tr ++ [Event.confirm valid])
       else
        (Except.error "File write cancelled by user", s1,
          tr ++ [Event.confirm valid])) := by
    unfold writeContentFile
    rw [hce]
    simp only [Bool.false_eq_true, if_false]
    rw [hacq]
    dsimp only
    rw [hname]
    dsimp only
    rw [hfe]
    rfl
  refine ⟨?_, ?_, ?_⟩
  · rw [hw]
    by_cases hco : env.confirmOverwrite = true
    · rw [if_pos hco]
      show (tr ++ [Event.confirm valid]).countP (fun e => isConfirmEvent e) = 1
      rw [List.countP_append, htr0]
      rfl
    · rw [if_neg hco]
      show (tr ++ [Event.confirm valid]).countP (fun e => isConfirmEvent e) = 1
      rw [List.countP_append, htr0]
      rfl
  · intro hco
    rw [hw, if_neg (by simp [hco])]
    exact ⟨rfl, hent⟩
  · intro hco
    rw [hw, if_pos hco]
    exact ⟨rfl, writeEntry_find hex⟩

/-- Witness for C7 at a concrete declining run: one resolver invocation,
cancelled write, untouched entries. -/
theorem C7_overwrite_gate_witness :
    ((writeContentFile envGranted
        ⟨some hContent, some hContent, [⟨"note.md", "file", "old"⟩]⟩
        "note" "new" false).2.2).countP
        (fun e => isConfirmEvent e) = 1 ∧
    (envGranted.confirmOverwrite = false →
      writeContentFile envGranted
          ⟨some hContent, some hContent, [⟨"note.md", "file", "old"⟩]⟩
          "note" "new" false =
        (Except.error "File write cancelled by user",
          ⟨some hContent, some hContent, [⟨"note.md", "file", "old"⟩]⟩,
          [Event.checkPerm hContent, Event.validate (some hContent)] ++
            [Event.confirm "note.md"]) ∧
      ([⟨"note.md", "file", "old"⟩] : List DirEntry) =
        [⟨"note.md", "file", "old"⟩]) ∧
    (envGranted.confirmOverwrite = true →
      (writeContentFile envGranted
          ⟨some hContent, some hContent, [⟨"note.md", "file", "old"⟩]⟩
          "note" "new" false).1 = Except.ok ⟨"note.md", true⟩ ∧
      ((writeContentFile envGranted
          ⟨some hContent, some hContent, [⟨"note.md", "file", "old"⟩]⟩
          "note" "new" false).2.1).entries.find?
          (fun e => e.name == "note.md") =
        some ⟨"note.md", "file", "new"⟩) :=
  C7_overwrite_gate (by rfl) (by rfl) (by rfl) (by decide)

end LLMCMS
